import Mathlib

/-!
Verification of the MorseEnDecoder library (MorseEnDecoder.cpp): a shallow
embedding of the `morseDecoder` and `morseEncoder` classes, and proofs of the
specification's claims about them.

Modelling conventions:
- C `int` / `long` / `unsigned long` timers are modelled as `Int`; every
  division appearing in the source has nonnegative operands, and is written
  with `Int.tdiv` (C's truncating division).
- The decoder is modelled in its digital mode (`morseAudio == false`): the
  `input` argument of `decode` is the already-inverted `digitalRead` value
  (`morseKeyer` after the `activeLow` correction).
- `digitalWrite` on the encoder pin is modelled by the `morseOutPin : Bool`
  field holding the current output level.
- `millis()` is the `currentTime` argument supplied per tick.
- The constant `morseTreeLevels = log(morseTreetop+1)/log(2)` evaluates to 6
  in the source (`morseTreetop = 63`); it is embedded as the literal 6.
-/

/-- Character index position of the binary morse tree top (`morseTreetop`). -/
def morseTreetop : Int := 63

/-- Number of entries of the morse table (`(morseTreetop*2)+1 = 127`). -/
def morseTableLength : Nat := 127

/-- Depth of the morse binary tree (`log(morseTreetop+1)/log(2) = 6`). -/
def morseTreeLevels : Nat := 6

/-- The morse code binary tree table (dichotomic search table), ITU with
punctuation, exactly as in the source; `*` is the sentinel for unused
positions. -/
def morseTable : List Char :=
  ("*5*H*4*S***V*3*I***F***U?*_**2*E***L\"**R*+.****A***P@**W***J'1* *6-B*=*D*/" ++
   "*X***N***C;*!K*()Y***T*7*Z**,G***Q***M:8*!***O*9***0*").toList

/-- The NUL character `'\0'`, used by the source as "no character". -/
def nulChar : Char := Char.ofNat 0

/-- State of one `morseDecoder` instance (its member variables, digital mode;
the audio-mode members `morseAudio`, `AudioThreshold`, `audioSignal` and the
pin number are omitted as they do not enter the digital decode path). -/
structure morseDecoder where
  wpm : Int
  dotTime : Int
  dashTime : Int
  wordSpace : Int
  debounceDelay : Int
  morseTableJumper : Int
  morseTablePointer : Int
  morseKeyer : Bool
  morseSignalState : Bool
  lastKeyerState : Bool
  gotLastSig : Bool
  morseSpace : Bool
  decodedMorseChar : Char
  lastDebounceTime : Int
  markTime : Int
  spaceTime : Int
  deriving Repr, DecidableEq

/-- The `morseDecoder` constructor's initial values (digital mode). -/
def morseDecoder.init : morseDecoder :=
  { wpm := 13
    debounceDelay := 20
    dotTime := Int.tdiv 1200 13
    dashTime := Int.tdiv (3 * 1200) 13
    wordSpace := Int.tdiv (7 * 1200) 13
    morseTableJumper := Int.tdiv (morseTreetop + 1) 2
    morseTablePointer := morseTreetop
    morseKeyer := false
    morseSignalState := false
    lastKeyerState := false
    gotLastSig := true
    morseSpace := true
    decodedMorseChar := nulChar
    lastDebounceTime := 0
    markTime := 0
    spaceTime := 0 }

/-- `morseDecoder::setspeed`. -/
def morseDecoder.setspeed (s : morseDecoder) (value : Int) : morseDecoder :=
  let wpm := if value ≤ 0 then 1 else value
  { s with wpm := wpm
           dotTime := Int.tdiv 1200 wpm
           dashTime := Int.tdiv (3 * 1200) wpm
           wordSpace := Int.tdiv (7 * 1200) wpm }

/-- `morseDecoder::available`. -/
def morseDecoder.available (s : morseDecoder) : Bool :=
  if s.decodedMorseChar ≠ nulChar then true else false

/-- `morseDecoder::read`: returns the pending character and the state with the
pending slot cleared. -/
def morseDecoder.read (s : morseDecoder) : Char × morseDecoder :=
  (s.decodedMorseChar, { s with decodedMorseChar := nulChar })

/-- The digital-mode signal front-end of `morseDecoder::decode` (read keyer,
debounce, stamp `markTime`/`spaceTime`).  The source stores
`lastKeyerState = morseKeyer` at the end of `decode`; since no later statement
of `decode` reads `lastKeyerState`, it is recorded here. -/
def morseDecoder.frontend (s : morseDecoder) (currentTime : Int) (input : Bool) :
    morseDecoder :=
  let morseKeyer := input
  let lastDebounceTime :=
    if morseKeyer ≠ s.lastKeyerState then currentTime else s.lastDebounceTime
  if currentTime - lastDebounceTime > s.debounceDelay then
    { s with morseKeyer := morseKeyer
             lastKeyerState := morseKeyer
             lastDebounceTime := lastDebounceTime
             morseSignalState := morseKeyer
             markTime := if morseKeyer then lastDebounceTime else s.markTime
             spaceTime := if morseKeyer then s.spaceTime else lastDebounceTime }
  else
    { s with morseKeyer := morseKeyer
             lastKeyerState := morseKeyer
             lastDebounceTime := lastDebounceTime }

/-- The pulse-classification block of `morseDecoder::decode` (the
`if (!gotLastSig)` block): classify the just-ended pulse as dot or dash, or
emit the error mark when the jumper is exhausted. -/
def morseDecoder.classify (s : morseDecoder) (currentTime : Int) : morseDecoder :=
  if s.gotLastSig = false then
    if s.morseTableJumper > 0 then
      if currentTime - s.spaceTime > Int.tdiv s.dotTime 2 then
        if s.spaceTime - s.markTime > Int.tdiv s.dotTime 4 then
          if s.spaceTime - s.markTime < Int.tdiv s.dashTime 2 then
            { s with morseTablePointer := s.morseTablePointer - s.morseTableJumper
                     morseTableJumper := Int.tdiv s.morseTableJumper 2
                     gotLastSig := true }
          else if s.spaceTime - s.markTime < s.dashTime + s.dotTime then
            { s with morseTablePointer := s.morseTablePointer + s.morseTableJumper
                     morseTableJumper := Int.tdiv s.morseTableJumper 2
                     gotLastSig := true }
          else s
        else s
      else s
    else
      { s with decodedMorseChar := '#'
               gotLastSig := true
               morseTableJumper := Int.tdiv (morseTreetop + 1) 2
               morseTablePointer := morseTreetop }
  else s

/-- The letter-emission block of `morseDecoder::decode`: write out the
character if the pause exceeds two dot times and a signal was received. -/
def morseDecoder.emitLetter (s : morseDecoder) (currentTime : Int) : morseDecoder :=
  if currentTime - s.spaceTime ≥ s.dotTime * 2 ∧
      s.morseTableJumper < Int.tdiv (morseTreetop + 1) 2 then
    { s with decodedMorseChar := morseTable.getD s.morseTablePointer.toNat nulChar
             morseTableJumper := Int.tdiv (morseTreetop + 1) 2
             morseTablePointer := morseTreetop }
  else s

/-- The word-space block of `morseDecoder::decode`: write a space if the pause
exceeds two thirds of the word space and no space was written yet. -/
def morseDecoder.emitSpace (s : morseDecoder) (currentTime : Int) : morseDecoder :=
  if currentTime - s.spaceTime > Int.tdiv (s.wordSpace * 2) 3 ∧ s.morseSpace = false then
    { s with decodedMorseChar := ' ', morseSpace := true }
  else s

/-- `morseDecoder::decode` (digital mode), one tick: front-end, then — while
no signal is present — classification, letter emission and space emission in
source order; while a signal is present, reset the `gotLastSig` and
`morseSpace` flags. -/
def morseDecoder.decode (s : morseDecoder) (currentTime : Int) (input : Bool) :
    morseDecoder :=
  let s1 := morseDecoder.frontend s currentTime input
  if s1.morseSignalState = false then
    morseDecoder.emitSpace
      (morseDecoder.emitLetter (morseDecoder.classify s1 currentTime) currentTime)
      currentTime
  else
    { s1 with gotLastSig := false, morseSpace := false }

/-- State of one `morseEncoder` instance (its member variables; the pin number
is omitted, the current output level of `digitalWrite` is `morseOutPin`). -/
structure morseEncoder where
  wpm : Int
  dotTime : Int
  dashTime : Int
  wordSpace : Int
  sendingMorse : Bool
  encodeMorseChar : Char
  morseSignalString : List Char
  morseSignals : Int
  morseSignalPos : Int
  sendingMorseSignalNr : Int
  sendMorseTimer : Int
  morseOutPin : Bool
  deriving Repr, DecidableEq

/-- The `morseEncoder` constructor's initial values; the output pin starts
deasserted (Arduino digital pins are LOW after `pinMode(..., OUTPUT)`). -/
def morseEncoder.init : morseEncoder :=
  { wpm := 13
    dotTime := Int.tdiv 1200 13
    dashTime := Int.tdiv (3 * 1200) 13
    wordSpace := Int.tdiv (7 * 1200) 13
    sendingMorse := false
    encodeMorseChar := nulChar
    morseSignalString := []
    morseSignals := 0
    morseSignalPos := 0
    sendingMorseSignalNr := 0
    sendMorseTimer := 0
    morseOutPin := false }

/-- `morseEncoder::setspeed`. -/
def morseEncoder.setspeed (s : morseEncoder) (value : Int) : morseEncoder :=
  let wpm := if value ≤ 0 then 1 else value
  { s with wpm := wpm
           dotTime := Int.tdiv 1200 wpm
           dashTime := Int.tdiv (3 * 1200) wpm
           wordSpace := Int.tdiv (7 * 1200) wpm }

/-- `morseEncoder::available`. -/
def morseEncoder.available (s : morseEncoder) : Bool :=
  if s.sendingMorse then false else true

/-- `morseEncoder::write`: queue a character unless busy or the sentinel. -/
def morseEncoder.write (s : morseEncoder) (temp : Char) : morseEncoder :=
  if s.sendingMorse = false ∧ temp ≠ '*' then { s with encodeMorseChar := temp }
  else s

/-- The capitalization step of `morseEncoder::encode`
(`if (encodeMorseChar > 'Z') encodeMorseChar -= 'z'-'Z';`): subtract 32 from
any character code greater than that of `'Z'`. -/
def normChar (c : Char) : Char :=
  if c > 'Z' then Char.ofNat (c.toNat - 32) else c

/-- The table scan of `morseEncoder::encode`: index of the first occurrence of
`c` in `morseTable`, or `morseTableLength` if absent. -/
def scanIndex (c : Char) : Nat :=
  (morseTable.findIdx? (fun x => x = c)).getD morseTableLength

/-- The level-finding loop of `morseEncoder::encode`: the first
`i < morseTreeLevels` with `(morseTablePos + (1 << i)) % (2 << i) == 0`, or
`morseTreeLevels` if none. -/
def findLevel (pos : Int) : Nat :=
  ((List.range morseTreeLevels).find?
    (fun i => Int.emod (pos + (2 : Int) ^ i) ((2 : Int) ^ (i + 1)) = 0)).getD
    morseTreeLevels

/-- The reverse dichotomic path tracing loop of `morseEncoder::encode`: called
with `fuel = morseTreeLevels - startLevel`, the current level is
`morseTreeLevels - fuel`.  The source writes each generated symbol at index
`morseSignals-1 - morseSignalPos++`, i.e. backwards from the end; consing each
generated symbol onto the accumulator builds exactly that reversed layout. -/
def buildPath : Nat → Int → List Char → List Char
  | 0, _, acc => acc
  | Nat.succ fuel, pos, acc =>
    let i : Nat := morseTreeLevels - Nat.succ fuel
    let add : Int := (2 : Int) ^ i
    let test : Int := Int.tdiv (pos + add) ((2 : Int) ^ (i + 1))
    if Int.emod test 2 = 1 then buildPath fuel (pos + add) ('.' :: acc)
    else buildPath fuel (pos - add) ('-' :: acc)

/-- The character-acceptance block of `morseEncoder::encode` (normalize, scan
the table, trace the reverse path, start sending). -/
def morseEncoder.accept (s : morseEncoder) (currentTime : Int) : morseEncoder :=
  let c := normChar s.encodeMorseChar
  let morseTablePos : Int := (scanIndex c : Int) + 1
  let startLevel := findLevel morseTablePos
  let morseSignals : Int := (morseTreeLevels : Int) - (startLevel : Int)
  if morseSignals > 0 then
    let str := buildPath (morseTreeLevels - startLevel) morseTablePos []
    { s with sendingMorse := true
             morseSignalString := str
             morseSignals := morseSignals
             morseSignalPos := morseSignals
             sendingMorseSignalNr := 0
             sendMorseTimer := currentTime
             morseOutPin := if str.headD nulChar ≠ ' ' then true else s.morseOutPin }
  else
    { s with sendingMorse := true
             morseSignalString := [' ']
             morseSignals := 1
             morseSignalPos := 1
             sendingMorseSignalNr := 0
             sendMorseTimer := currentTime
             morseOutPin := s.morseOutPin }

/-- The sending state machine of `morseEncoder::encode` (the
`if (sendingMorse)` block): advance the current symbol by one tick. -/
def morseEncoder.sendPhase (s : morseEncoder) (currentTime : Int) : morseEncoder :=
  let sym := s.morseSignalString.getD s.sendingMorseSignalNr.toNat nulChar
  let s :=
    if sym = '.' then
      if currentTime - s.sendMorseTimer ≥ s.dotTime then
        { s with morseOutPin := false
                 sendMorseTimer := currentTime
                 morseSignalString :=
                   s.morseSignalString.set s.sendingMorseSignalNr.toNat 'x' }
      else s
    else if sym = '-' then
      if currentTime - s.sendMorseTimer ≥ s.dashTime then
        { s with morseOutPin := false
                 sendMorseTimer := currentTime
                 morseSignalString :=
                   s.morseSignalString.set s.sendingMorseSignalNr.toNat 'x' }
      else s
    else if sym = 'x' then
      if s.sendingMorseSignalNr < s.morseSignals - 1 then
        if currentTime - s.sendMorseTimer ≥ s.dotTime then
          { s with sendingMorseSignalNr := s.sendingMorseSignalNr + 1
                   morseOutPin := true
                   sendMorseTimer := currentTime }
        else s
      else
        if currentTime - s.sendMorseTimer ≥ s.dashTime then
          { s with sendingMorseSignalNr := s.sendingMorseSignalNr + 1
                   sendMorseTimer := currentTime }
        else s
    else
      if currentTime - s.sendMorseTimer > s.wordSpace - s.dashTime then
        { s with sendingMorseSignalNr := s.sendingMorseSignalNr + 1 }
      else s
  if s.sendingMorseSignalNr ≥ s.morseSignals then
    { s with sendingMorse := false, encodeMorseChar := nulChar }
  else s

/-- `morseEncoder::encode`, one tick: accept a queued character when idle,
then advance the transmission when one is in progress. -/
def morseEncoder.encode (s : morseEncoder) (currentTime : Int) : morseEncoder :=
  let s1 :=
    if s.sendingMorse = false ∧ s.encodeMorseChar ≠ nulChar then
      morseEncoder.accept s currentTime
    else s
  if s1.sendingMorse then morseEncoder.sendPhase s1 currentTime else s1

/-- Run the encoder from a written character on a 20 ms tick grid, recording
the output pin level after each tick, until the transmission completes (the
scheduler loop of the trainer sketch, with the clock advancing 20 ms per
iteration).  `k` is the tick counter, `fuel` bounds the recursion. -/
def encodeTraceGo : morseEncoder → Nat → Nat → List Bool
  | _, _, 0 => []
  | s, k, Nat.succ fuel =>
    let s1 := morseEncoder.encode s ((20 : Int) * (k : Int))
    s1.morseOutPin :: (if s1.sendingMorse then encodeTraceGo s1 (k + 1) fuel else [])

/-- The on/off pulse sequence the encoder produces for character `c`, sampled
every 20 ms from a fresh encoder, ending on the tick on which the encoder
becomes available again. -/
def encodeTrace (c : Char) : List Bool :=
  encodeTraceGo (morseEncoder.write morseEncoder.init c) 0 1200

/-- Feed a sampled on/off sequence into a decoder tick by tick (20 ms grid),
collecting every pending character through `read` as the trainer loop does. -/
def decodeRunGo : morseDecoder → Nat → List Bool → List Char
  | _, _, [] => []
  | s, k, b :: rest =>
    let s1 := morseDecoder.decode s ((20 : Int) * (k : Int)) b
    if s1.decodedMorseChar ≠ nulChar then
      (morseDecoder.read s1).1 :: decodeRunGo (morseDecoder.read s1).2 (k + 1) rest
    else
      decodeRunGo s1 (k + 1) rest

/-- All characters a fresh decoder emits while consuming a sampled on/off
sequence. -/
def decodeRun (trace : List Bool) : List Char :=
  decodeRunGo morseDecoder.init 0 trace

/-- Expand a run-length encoded signal (level, duration in ms; durations are
multiples of 20) into 20 ms samples. -/
def expandRuns : List (Bool × Nat) → List Bool
  | [] => []
  | (b, d) :: rest => List.replicate (d / 20) b ++ expandRuns rest

/-- One external stimulus to a decoder instance: a `decode` tick with a clock
value and an input level, or a `setspeed` call. -/
inductive DecCmd where
  | tick (t : Int) (input : Bool)
  | speed (w : Int)

/-- Run a decoder over a sequence of stimuli. -/
def runDec : morseDecoder → List DecCmd → morseDecoder
  | s, [] => s
  | s, DecCmd.tick t i :: rest => runDec (morseDecoder.decode s t i) rest
  | s, DecCmd.speed w :: rest => runDec (morseDecoder.setspeed s w) rest

/-- Claim C5 counterexample: at 13 wpm the code yields `dashTime = 276`, not
the claimed 277, and `wordSpace = 646`, which is not 7 times the integer dot
duration 92. -/
theorem claim_C5_counterexample :
    (morseDecoder.setspeed morseDecoder.init 13).dotTime = 92 ∧
    (morseDecoder.setspeed morseDecoder.init 13).dashTime = 276 ∧
    (morseDecoder.setspeed morseDecoder.init 13).wordSpace = 646 ∧
    (276 : Int) ≠ 277 ∧ (646 : Int) ≠ 7 * 92 := by decide

/-- Claim C5 (amended): `setspeed` on either class clamps `wpm ≤ 0` to 1 and
sets `dotTime = 1200/wpm`, `dashTime = 3600/wpm` and `wordSpace = 8400/wpm`
(integer division on the full products, not multiples of the integer dot
time); at 13 wpm this gives 92, 276 and 646. -/
theorem claim_C5_setspeed : ∀ (s : morseDecoder) (e : morseEncoder) (w : Int),
    ((morseDecoder.setspeed s w).wpm = if w ≤ 0 then 1 else w) ∧
    (morseDecoder.setspeed s w).dotTime = Int.tdiv 1200 (morseDecoder.setspeed s w).wpm ∧
    (morseDecoder.setspeed s w).dashTime = Int.tdiv 3600 (morseDecoder.setspeed s w).wpm ∧
    (morseDecoder.setspeed s w).wordSpace = Int.tdiv 8400 (morseDecoder.setspeed s w).wpm ∧
    ((morseEncoder.setspeed e w).wpm = if w ≤ 0 then 1 else w) ∧
    (morseEncoder.setspeed e w).dotTime = Int.tdiv 1200 (morseEncoder.setspeed e w).wpm ∧
    (morseEncoder.setspeed e w).dashTime = Int.tdiv 3600 (morseEncoder.setspeed e w).wpm ∧
    (morseEncoder.setspeed e w).wordSpace = Int.tdiv 8400 (morseEncoder.setspeed e w).wpm ∧
    (morseDecoder.setspeed s 13).dotTime = 92 ∧
    (morseDecoder.setspeed s 13).dashTime = 276 ∧
    (morseDecoder.setspeed s 13).wordSpace = 646 ∧
    (morseEncoder.setspeed e 13).dotTime = 92 ∧
    (morseEncoder.setspeed e 13).dashTime = 276 ∧
    (morseEncoder.setspeed e 13).wordSpace = 646 := by
  intro s e w
  simp only [morseDecoder.setspeed, morseEncoder.setspeed]
  norm_num
  decide

/-- Claim C10: `available` is true exactly when the pending slot is not NUL;
`read` returns the slot content, clears the slot, returns NUL when nothing is
pending, and `available` is false right after any `read`. -/
theorem claim_C10_mailbox : ∀ s : morseDecoder,
    (morseDecoder.available s = true ↔ s.decodedMorseChar ≠ nulChar) ∧
    (morseDecoder.read s).1 = s.decodedMorseChar ∧
    (morseDecoder.read s).2.decodedMorseChar = nulChar ∧
    (s.decodedMorseChar = nulChar → (morseDecoder.read s).1 = nulChar) ∧
    morseDecoder.available (morseDecoder.read s).2 = false := by
  intro s
  unfold morseDecoder.available morseDecoder.read
  refine ⟨?_, rfl, rfl, fun h => h, ?_⟩
  · split <;> simp_all
  · simp

/-- Claim C10 witness: the mailbox contract instantiated at the freshly
constructed decoder. -/
theorem claim_C10_mailbox_witness :
    (morseDecoder.available morseDecoder.init = true ↔
      morseDecoder.init.decodedMorseChar ≠ nulChar) ∧
    (morseDecoder.read morseDecoder.init).1 = morseDecoder.init.decodedMorseChar ∧
    (morseDecoder.read morseDecoder.init).2.decodedMorseChar = nulChar ∧
    (morseDecoder.init.decodedMorseChar = nulChar →
      (morseDecoder.read morseDecoder.init).1 = nulChar) ∧
    morseDecoder.available (morseDecoder.read morseDecoder.init).2 = false :=
  claim_C10_mailbox morseDecoder.init

/-- Claim C7 counterexample: `'_'` is accepted by the encoder (it is not the
sentinel), is not a lowercase letter, yet the capitalization step turns it
into `'?'`, so it is not looked up in the table unchanged. -/
theorem claim_C7_counterexample :
    normChar '_' = '?' ∧ ¬('a' ≤ '_' ∧ '_' ≤ 'z') ∧ '_' ∈ morseTable ∧
    ('?' : Char) ≠ '_' := by decide

/-- Claim C7 (amended): the encoder's capitalization step subtracts 32 from
every character whose code exceeds that of `'Z'` (90) — this maps lowercase
letters to their uppercase forms but also rewrites characters such as `'_'` —
and leaves every character with code at most 90 unchanged; a character is
altered if and only if its code exceeds 90. -/
theorem claim_C7_normalize : ∀ n : Nat, n < 128 →
    ((normChar (Char.ofNat n) ≠ Char.ofNat n) ↔ 90 < n) ∧
    (97 ≤ n → n ≤ 122 →
      (normChar (Char.ofNat n)).toNat = n - 32 ∧
      'A' ≤ normChar (Char.ofNat n) ∧ normChar (Char.ofNat n) ≤ 'Z') ∧
    (n ≤ 90 → normChar (Char.ofNat n) = Char.ofNat n) := by decide

/-- Claim C7 witness: the normalization facts instantiated at `'_'` (code 95)
and at `'a'` (code 97). -/
theorem claim_C7_normalize_witness :
    (95 : Nat) < 128 ∧ ((normChar (Char.ofNat 95) ≠ Char.ofNat 95) ↔ 90 < 95) ∧
    (97 : Nat) < 128 ∧ (normChar (Char.ofNat 97)).toNat = 97 - 32 :=
  ⟨by decide, (claim_C7_normalize 95 (by decide)).1, by decide,
    ((claim_C7_normalize 97 (by decide)).2.1 (by decide) (by decide)).1⟩

set_option maxRecDepth 400000 in
/-- Claim C8: a character that — after the capitalization step — does not
occur in the morse table produces a pulse sequence in which the output is
never asserted: the encoder runs it as a bare word space and surfaces no
error. -/
theorem claim_C8_unmapped : ∀ n : Nat, n < 128 →
    normChar (Char.ofNat n) ∉ morseTable →
    (encodeTrace (Char.ofNat n)).all (fun b => b = false) = true := by decide

set_option maxRecDepth 400000 in
/-- Claim C8 witness: encoding `'%'` (code 37, unmapped) never asserts the
output. -/
theorem claim_C8_unmapped_witness :
    (37 : Nat) < 128 ∧ normChar (Char.ofNat 37) ∉ morseTable ∧
    (encodeTrace (Char.ofNat 37)).all (fun b => b = false) = true :=
  ⟨by decide, by decide, claim_C8_unmapped 37 (by decide) (by decide)⟩

/-- Claim C6: during one uninterrupted silence run after a completed letter
(flags reset, jumper back at the treetop), once the silence exceeds two thirds
of the word space the tick emits exactly one space and sets the
written-space flag; on any later tick of the same run with the flag set, the
pending slot is left untouched and the state shape is preserved. -/
theorem claim_C6_word_space : ∀ (s : morseDecoder) (t : Int),
    s.lastKeyerState = false →
    t - s.lastDebounceTime > s.debounceDelay →
    s.gotLastSig = true →
    s.morseTableJumper = Int.tdiv (morseTreetop + 1) 2 →
    ((s.morseSpace = false →
        t - s.lastDebounceTime > Int.tdiv (s.wordSpace * 2) 3 →
        (morseDecoder.decode s t false).decodedMorseChar = ' ' ∧
        (morseDecoder.decode s t false).morseSpace = true ∧
        (morseDecoder.decode s t false).gotLastSig = true ∧
        (morseDecoder.decode s t false).morseTableJumper = Int.tdiv (morseTreetop + 1) 2 ∧
        (morseDecoder.decode s t false).lastDebounceTime = s.lastDebounceTime ∧
        (morseDecoder.decode s t false).lastKeyerState = false) ∧
     (s.morseSpace = true →
        (morseDecoder.decode s t false).decodedMorseChar = s.decodedMorseChar ∧
        (morseDecoder.decode s t false).morseSpace = true ∧
        (morseDecoder.decode s t false).gotLastSig = true ∧
        (morseDecoder.decode s t false).morseTableJumper = Int.tdiv (morseTreetop + 1) 2 ∧
        (morseDecoder.decode s t false).lastDebounceTime = s.lastDebounceTime ∧
        (morseDecoder.decode s t false).lastKeyerState = false)) := by
  intro s t hk hdb hgot hjump
  have h32 : Int.tdiv (morseTreetop + 1) 2 = (32 : Int) := by decide
  have hfe : morseDecoder.frontend s t false =
      { s with morseKeyer := false, lastKeyerState := false,
               morseSignalState := false, spaceTime := s.lastDebounceTime } := by
    unfold morseDecoder.frontend
    simp [hk, hdb]
  constructor
  · intro hms hcond
    unfold morseDecoder.decode
    rw [hfe]
    unfold morseDecoder.classify morseDecoder.emitLetter morseDecoder.emitSpace
    simp [hgot, hjump, h32, hms, hcond]
  · intro hms
    unfold morseDecoder.decode
    rw [hfe]
    unfold morseDecoder.classify morseDecoder.emitLetter morseDecoder.emitSpace
    simp [hgot, hjump, h32, hms]

/-- Claim C6 witness: the two parts instantiated after a decoded `'E'` — a
decoder state with the space flag clear emits one space at 500 ms of silence,
and the same state with the flag set emits nothing at 600 ms. -/
theorem claim_C6_word_space_witness :
    (morseDecoder.decode { morseDecoder.init with morseSpace := false } 500
        false).decodedMorseChar = ' ' ∧
    (morseDecoder.decode { morseDecoder.init with morseSpace := false } 500
        false).morseSpace = true ∧
    (morseDecoder.decode morseDecoder.init 600 false).decodedMorseChar =
      morseDecoder.init.decodedMorseChar ∧
    (morseDecoder.decode morseDecoder.init 600 false).morseSpace = true :=
  ⟨((claim_C6_word_space { morseDecoder.init with morseSpace := false } 500
      rfl (by decide) rfl rfl).1 rfl (by decide)).1,
   ((claim_C6_word_space { morseDecoder.init with morseSpace := false } 500
      rfl (by decide) rfl rfl).1 rfl (by decide)).2.1,
   ((claim_C6_word_space morseDecoder.init 600 rfl (by decide) rfl rfl).2 rfl).1,
   ((claim_C6_word_space morseDecoder.init 600 rfl (by decide) rfl rfl).2 rfl).2.1⟩

/-- A decoder state in which a 92 ms dot has just ended and no tick has run
since: one keyer press from 0 to 92 ms, observed by sparse ticks.  Used to
exhibit a tick on which the letter condition and the word-space condition
hold simultaneously. -/
def c2State : morseDecoder :=
  runDec morseDecoder.init
    [DecCmd.tick 0 true, DecCmd.tick 30 true, DecCmd.tick 92 false,
     DecCmd.tick 115 false]

/-- Claim C2 counterexample: on the tick at 700 ms both emission conditions
fire — the letter block writes `'E'` (= `morseTable[31]`) and resets the
pointer and jumper, as the reset values show — yet the space block then
overwrites the slot, so the mailbox ends the tick holding `' '`, not the
decoded letter. -/
theorem claim_C2_counterexample :
    (morseDecoder.emitLetter
        (morseDecoder.classify (morseDecoder.frontend c2State 700 false) 700)
        700).decodedMorseChar = 'E' ∧
    (morseDecoder.decode c2State 700 false).decodedMorseChar = ' ' ∧
    (morseDecoder.decode c2State 700 false).morseSpace = true ∧
    (morseDecoder.decode c2State 700 false).morseTableJumper = 32 ∧
    (morseDecoder.decode c2State 700 false).morseTablePointer = 63 ∧
    ((' ' : Char) = 'E') = False := by decide

/-- Claim C2 (amended): the single-slot mailbox holds at most one character
after a tick, but when the letter-boundary condition and the word-space
condition hold on the same silent tick, both blocks write the slot in source
order — letter first, then space — so the space character, not the decoded
letter, is what the mailbox holds after the tick (word-space wins by
overwriting; the letter block still performs its pointer/jumper reset). -/
theorem claim_C2_priority : ∀ (s : morseDecoder) (t : Int),
    s.lastKeyerState = false →
    t - s.lastDebounceTime > s.debounceDelay →
    s.gotLastSig = true →
    s.morseTableJumper < Int.tdiv (morseTreetop + 1) 2 →
    t - s.lastDebounceTime ≥ s.dotTime * 2 →
    t - s.lastDebounceTime > Int.tdiv (s.wordSpace * 2) 3 →
    s.morseSpace = false →
    (morseDecoder.decode s t false).decodedMorseChar = ' ' ∧
    (morseDecoder.decode s t false).morseSpace = true ∧
    (morseDecoder.decode s t false).morseTableJumper = Int.tdiv (morseTreetop + 1) 2 ∧
    (morseDecoder.decode s t false).morseTablePointer = morseTreetop := by
  intro s t hk hdb hgot hjump hletter hspace hms
  have hfe : morseDecoder.frontend s t false =
      { s with morseKeyer := false, lastKeyerState := false,
               morseSignalState := false, spaceTime := s.lastDebounceTime } := by
    unfold morseDecoder.frontend
    simp [hk, hdb]
  unfold morseDecoder.decode
  rw [hfe]
  unfold morseDecoder.classify morseDecoder.emitLetter morseDecoder.emitSpace
  simp [hgot, hjump, hletter, hspace, hms]

/-- Claim C2 witness: the amended statement applied to the state `c2State`
after its classification tick — a state with a classified dot pending —
at 700 ms. -/
theorem claim_C2_priority_witness :
    (morseDecoder.decode (morseDecoder.classify
        (morseDecoder.frontend c2State 700 false) 700) 700 false).decodedMorseChar =
      ' ' ∧
    (morseDecoder.decode (morseDecoder.classify
        (morseDecoder.frontend c2State 700 false) 700) 700
        false).morseTableJumper = Int.tdiv (morseTreetop + 1) 2 :=
  ⟨(claim_C2_priority _ 700 (by decide) (by decide) (by decide) (by decide)
      (by decide) (by decide) (by decide)).1,
   (claim_C2_priority _ 700 (by decide) (by decide) (by decide) (by decide)
      (by decide) (by decide) (by decide)).2.2.1⟩

/-- `emitSpace` never moves the table pointer. -/
theorem emitSpace_morseTablePointer (u : morseDecoder) (t : Int) :
    (morseDecoder.emitSpace u t).morseTablePointer = u.morseTablePointer := by
  unfold morseDecoder.emitSpace
  split <;> rfl

/-- `emitSpace` never changes the table jumper. -/
theorem emitSpace_morseTableJumper (u : morseDecoder) (t : Int) :
    (morseDecoder.emitSpace u t).morseTableJumper = u.morseTableJumper := by
  unfold morseDecoder.emitSpace
  split <;> rfl

/-- `emitSpace` never changes the pulse-received flag. -/
theorem emitSpace_gotLastSig (u : morseDecoder) (t : Int) :
    (morseDecoder.emitSpace u t).gotLastSig = u.gotLastSig := by
  unfold morseDecoder.emitSpace
  split <;> rfl

/-- When the debounced signal is low, `decode` is the composition of the
three silent-side blocks after the front-end. -/
theorem decode_silent (s : morseDecoder) (t : Int) (input : Bool)
    (h : (morseDecoder.frontend s t input).morseSignalState = false) :
    morseDecoder.decode s t input =
      morseDecoder.emitSpace (morseDecoder.emitLetter
        (morseDecoder.classify (morseDecoder.frontend s t input) t) t) t := by
  unfold morseDecoder.decode
  simp [h]

/-- Claim C3: at the constructor speed (dot 92 ms, dash 276 ms), once the
signal is released and the silence since the release exceeds half a dot time,
a just-ended pulse of 24 ms (`dot/4 + 1`) is accepted and classified as a dot,
one of 137 ms (`dash/2 - 1`) as a dot, one of 139 ms (`dash/2 + 1`) as a
dash, and one of 369 ms (`dash + dot + 1`) is discarded with no tree
movement.  The silence bound 184 ms keeps the letter and word-space blocks
out of the picture. -/
theorem claim_C3_classification : ∀ (s : morseDecoder) (t : Int),
    s.lastKeyerState = false →
    s.debounceDelay = 20 →
    s.dotTime = 92 →
    s.dashTime = 276 →
    s.gotLastSig = false →
    s.morseTableJumper > 0 →
    t - s.lastDebounceTime > 46 →
    t - s.lastDebounceTime < 184 →
    ((s.lastDebounceTime - s.markTime = Int.tdiv s.dotTime 4 + 1 →
        (morseDecoder.decode s t false).morseTablePointer =
          s.morseTablePointer - s.morseTableJumper ∧
        (morseDecoder.decode s t false).morseTableJumper =
          Int.tdiv s.morseTableJumper 2 ∧
        (morseDecoder.decode s t false).gotLastSig = true) ∧
     (s.lastDebounceTime - s.markTime = Int.tdiv s.dashTime 2 - 1 →
        (morseDecoder.decode s t false).morseTablePointer =
          s.morseTablePointer - s.morseTableJumper ∧
        (morseDecoder.decode s t false).morseTableJumper =
          Int.tdiv s.morseTableJumper 2 ∧
        (morseDecoder.decode s t false).gotLastSig = true) ∧
     (s.lastDebounceTime - s.markTime = Int.tdiv s.dashTime 2 + 1 →
        (morseDecoder.decode s t false).morseTablePointer =
          s.morseTablePointer + s.morseTableJumper ∧
        (morseDecoder.decode s t false).morseTableJumper =
          Int.tdiv s.morseTableJumper 2 ∧
        (morseDecoder.decode s t false).gotLastSig = true) ∧
     (s.lastDebounceTime - s.markTime = s.dashTime + s.dotTime + 1 →
        (morseDecoder.decode s t false).morseTablePointer = s.morseTablePointer ∧
        (morseDecoder.decode s t false).morseTableJumper = s.morseTableJumper ∧
        (morseDecoder.decode s t false).gotLastSig = false)) := by
  intro s t hk hdd hdot hdash hgot hjump hsil hsil2
  have h92_2 : Int.tdiv (92 : Int) 2 = 46 := by decide
  have h92_4 : Int.tdiv (92 : Int) 4 = 23 := by decide
  have h276_2 : Int.tdiv (276 : Int) 2 = 138 := by decide
  have hfe : morseDecoder.frontend s t false =
      { s with morseKeyer := false, lastKeyerState := false,
               morseSignalState := false, spaceTime := s.lastDebounceTime } := by
    unfold morseDecoder.frontend
    simp [hk, hdd]
    omega
  have hsig : (morseDecoder.frontend s t false).morseSignalState = false := by
    rw [hfe]
  refine ⟨?_, ?_, ?_, ?_⟩
  · intro hdur
    rw [hdot, h92_4] at hdur
    have ha : s.lastDebounceTime - s.markTime > (23 : Int) := by omega
    have hb : s.lastDebounceTime - s.markTime < (138 : Int) := by omega
    have hcl : morseDecoder.classify (morseDecoder.frontend s t false) t =
        { s with morseKeyer := false, lastKeyerState := false,
                 morseSignalState := false, spaceTime := s.lastDebounceTime,
                 morseTablePointer := s.morseTablePointer - s.morseTableJumper,
                 morseTableJumper := Int.tdiv s.morseTableJumper 2,
                 gotLastSig := true } := by
      rw [hfe]
      unfold morseDecoder.classify
      simp [hgot, hjump, hdot, hdash, h92_2, h92_4, h276_2, hsil, ha, hb]
    have hel : morseDecoder.emitLetter
        ({ s with morseKeyer := false, lastKeyerState := false,
                  morseSignalState := false, spaceTime := s.lastDebounceTime,
                  morseTablePointer := s.morseTablePointer - s.morseTableJumper,
                  morseTableJumper := Int.tdiv s.morseTableJumper 2,
                  gotLastSig := true } : morseDecoder) t =
        { s with morseKeyer := false, lastKeyerState := false,
                 morseSignalState := false, spaceTime := s.lastDebounceTime,
                 morseTablePointer := s.morseTablePointer - s.morseTableJumper,
                 morseTableJumper := Int.tdiv s.morseTableJumper 2,
                 gotLastSig := true } := by
      unfold morseDecoder.emitLetter
      split
      · rename_i hcond
        exfalso
        simp [hdot] at hcond
        omega
      · rfl
    rw [decode_silent s t false hsig, hcl, hel]
    refine ⟨?_, ?_, ?_⟩ <;>
      simp [emitSpace_morseTablePointer, emitSpace_morseTableJumper, emitSpace_gotLastSig]
  · intro hdur
    rw [hdash, h276_2] at hdur
    have ha : s.lastDebounceTime - s.markTime > (23 : Int) := by omega
    have hb : s.lastDebounceTime - s.markTime < (138 : Int) := by omega
    have hcl : morseDecoder.classify (morseDecoder.frontend s t false) t =
        { s with morseKeyer := false, lastKeyerState := false,
                 morseSignalState := false, spaceTime := s.lastDebounceTime,
                 morseTablePointer := s.morseTablePointer - s.morseTableJumper,
                 morseTableJumper := Int.tdiv s.morseTableJumper 2,
                 gotLastSig := true } := by
      rw [hfe]
      unfold morseDecoder.classify
      simp [hgot, hjump, hdot, hdash, h92_2, h92_4, h276_2, hsil, ha, hb]
    have hel : morseDecoder.emitLetter
        ({ s with morseKeyer := false, lastKeyerState := false,
                  morseSignalState := false, spaceTime := s.lastDebounceTime,
                  morseTablePointer := s.morseTablePointer - s.morseTableJumper,
                  morseTableJumper := Int.tdiv s.morseTableJumper 2,
                  gotLastSig := true } : morseDecoder) t =
        { s with morseKeyer := false, lastKeyerState := false,
                 morseSignalState := false, spaceTime := s.lastDebounceTime,
                 morseTablePointer := s.morseTablePointer - s.morseTableJumper,
                 morseTableJumper := Int.tdiv s.morseTableJumper 2,
                 gotLastSig := true } := by
      unfold morseDecoder.emitLetter
      split
      · rename_i hcond
        exfalso
        simp [hdot] at hcond
        omega
      · rfl
    rw [decode_silent s t false hsig, hcl, hel]
    refine ⟨?_, ?_, ?_⟩ <;>
      simp [emitSpace_morseTablePointer, emitSpace_morseTableJumper, emitSpace_gotLastSig]
  · intro hdur
    rw [hdash, h276_2] at hdur
    have ha : s.lastDebounceTime - s.markTime > (23 : Int) := by omega
    have hb : ¬ s.lastDebounceTime - s.markTime < (138 : Int) := by omega
    have hc : s.lastDebounceTime - s.markTime < (368 : Int) := by omega
    have hcl : morseDecoder.classify (morseDecoder.frontend s t false) t =
        { s with morseKeyer := false, lastKeyerState := false,
                 morseSignalState := false, spaceTime := s.lastDebounceTime,
                 morseTablePointer := s.morseTablePointer + s.morseTableJumper,
                 morseTableJumper := Int.tdiv s.morseTableJumper 2,
                 gotLastSig := true } := by
      rw [hfe]
      unfold morseDecoder.classify
      simp [hgot, hjump, hdot, hdash, h92_2, h92_4, h276_2, hsil, ha, hb, hc]
    have hel : morseDecoder.emitLetter
        ({ s with morseKeyer := false, lastKeyerState := false,
                  morseSignalState := false, spaceTime := s.lastDebounceTime,
                  morseTablePointer := s.morseTablePointer + s.morseTableJumper,
                  morseTableJumper := Int.tdiv s.morseTableJumper 2,
                  gotLastSig := true } : morseDecoder) t =
        { s with morseKeyer := false, lastKeyerState := false,
                 morseSignalState := false, spaceTime := s.lastDebounceTime,
                 morseTablePointer := s.morseTablePointer + s.morseTableJumper,
                 morseTableJumper := Int.tdiv s.morseTableJumper 2,
                 gotLastSig := true } := by
      unfold morseDecoder.emitLetter
      split
      · rename_i hcond
        exfalso
        simp [hdot] at hcond
        omega
      · rfl
    rw [decode_silent s t false hsig, hcl, hel]
    refine ⟨?_, ?_, ?_⟩ <;>
      simp [emitSpace_morseTablePointer, emitSpace_morseTableJumper, emitSpace_gotLastSig]
  · intro hdur
    rw [hdash, hdot] at hdur
    have ha : s.lastDebounceTime - s.markTime > (23 : Int) := by omega
    have hb : ¬ s.lastDebounceTime - s.markTime < (138 : Int) := by omega
    have hc : ¬ s.lastDebounceTime - s.markTime < (368 : Int) := by omega
    have hcl : morseDecoder.classify (morseDecoder.frontend s t false) t =
        { s with morseKeyer := false, lastKeyerState := false,
                 morseSignalState := false, spaceTime := s.lastDebounceTime } := by
      rw [hfe]
      unfold morseDecoder.classify
      simp [hgot, hjump, hdot, hdash, h92_2, h92_4, h276_2, hsil, ha, hb, hc]
    have hel : morseDecoder.emitLetter
        ({ s with morseKeyer := false, lastKeyerState := false,
                  morseSignalState := false,
                  spaceTime := s.lastDebounceTime } : morseDecoder) t =
        { s with morseKeyer := false, lastKeyerState := false,
                 morseSignalState := false, spaceTime := s.lastDebounceTime } := by
      unfold morseDecoder.emitLetter
      split
      · rename_i hcond
        exfalso
        simp [hdot] at hcond
        omega
      · rfl
    rw [decode_silent s t false hsig, hcl, hel]
    refine ⟨?_, ?_, ?_⟩ <;>
      simp [emitSpace_morseTablePointer, emitSpace_morseTableJumper, emitSpace_gotLastSig,
        hgot]

/-- A decoder state in which a pulse that lasted `d` milliseconds (from 0 to
`d`) has just ended and is not yet classified. -/
def c3State (d : Int) : morseDecoder :=
  { morseDecoder.init with gotLastSig := false, markTime := 0,
                           lastDebounceTime := d, spaceTime := d }

/-- Claim C3 witness: the four boundary classifications instantiated at the
concrete pulse durations 24, 137, 139 and 369 ms, each checked 100 ms after
the release. -/
theorem claim_C3_classification_witness :
    ((morseDecoder.decode (c3State 24) 124 false).morseTablePointer =
      (c3State 24).morseTablePointer - (c3State 24).morseTableJumper ∧
     (morseDecoder.decode (c3State 24) 124 false).gotLastSig = true) ∧
    ((morseDecoder.decode (c3State 137) 237 false).morseTablePointer =
      (c3State 137).morseTablePointer - (c3State 137).morseTableJumper ∧
     (morseDecoder.decode (c3State 137) 237 false).gotLastSig = true) ∧
    ((morseDecoder.decode (c3State 139) 239 false).morseTablePointer =
      (c3State 139).morseTablePointer + (c3State 139).morseTableJumper ∧
     (morseDecoder.decode (c3State 139) 239 false).gotLastSig = true) ∧
    ((morseDecoder.decode (c3State 369) 469 false).morseTablePointer =
      (c3State 369).morseTablePointer ∧
     (morseDecoder.decode (c3State 369) 469 false).gotLastSig = false) :=
  ⟨⟨((claim_C3_classification (c3State 24) 124 rfl rfl (by decide) (by decide)
        rfl (by decide) (by decide) (by decide)).1 (by decide)).1,
    ((claim_C3_classification (c3State 24) 124 rfl rfl (by decide) (by decide)
        rfl (by decide) (by decide) (by decide)).1 (by decide)).2.2⟩,
   ⟨((claim_C3_classification (c3State 137) 237 rfl rfl (by decide) (by decide)
        rfl (by decide) (by decide) (by decide)).2.1 (by decide)).1,
    ((claim_C3_classification (c3State 137) 237 rfl rfl (by decide) (by decide)
        rfl (by decide) (by decide) (by decide)).2.1 (by decide)).2.2⟩,
   ⟨((claim_C3_classification (c3State 139) 239 rfl rfl (by decide) (by decide)
        rfl (by decide) (by decide) (by decide)).2.2.1 (by decide)).1,
    ((claim_C3_classification (c3State 139) 239 rfl rfl (by decide) (by decide)
        rfl (by decide) (by decide) (by decide)).2.2.1 (by decide)).2.2⟩,
   ⟨((claim_C3_classification (c3State 369) 469 rfl rfl (by decide) (by decide)
        rfl (by decide) (by decide) (by decide)).2.2.2 (by decide)).1,
    ((claim_C3_classification (c3State 369) 469 rfl rfl (by decide) (by decide)
        rfl (by decide) (by decide) (by decide)).2.2.2 (by decide)).2.2⟩⟩

/-- Claim C4: when the jumper has been exhausted (7th pulse with no letter
boundary), the next silent tick emits the reserved error mark `'#'` and
immediately resets the pointer and jumper to treetop values; and concretely,
feeding 7 dot pulses followed by a gap and then a valid `'E'` pulse train
into a fresh decoder yields exactly `['#', 'E']` — the error is reported
in-band exactly once and valid input decodes correctly afterwards. -/
theorem claim_C4_overflow_error :
    (∀ (s : morseDecoder) (t : Int),
      s.lastKeyerState = false →
      t - s.lastDebounceTime > s.debounceDelay →
      s.gotLastSig = false →
      s.morseTableJumper = 0 →
      ¬ t - s.lastDebounceTime > Int.tdiv (s.wordSpace * 2) 3 →
      (morseDecoder.decode s t false).decodedMorseChar = '#' ∧
      (morseDecoder.decode s t false).morseTableJumper =
        Int.tdiv (morseTreetop + 1) 2 ∧
      (morseDecoder.decode s t false).morseTablePointer = morseTreetop ∧
      (morseDecoder.decode s t false).gotLastSig = true) ∧
    decodeRun (expandRuns ((List.replicate 7 [(true, 100), (false, 100)]).flatten ++
      [(false, 100), (true, 100), (false, 280)])) = ['#', 'E'] := by
  constructor
  · intro s t hk hdb hgot hj0 hws
    have h32 : Int.tdiv (morseTreetop + 1) 2 = (32 : Int) := by decide
    have hfe : morseDecoder.frontend s t false =
        { s with morseKeyer := false, lastKeyerState := false,
                 morseSignalState := false, spaceTime := s.lastDebounceTime } := by
      unfold morseDecoder.frontend
      simp [hk, hdb]
    unfold morseDecoder.decode
    rw [hfe]
    unfold morseDecoder.classify morseDecoder.emitLetter morseDecoder.emitSpace
    simp [hgot, hj0, h32, hws]
  · decide

/-- Claim C4 witness: the error-and-reset step instantiated at a decoder
state whose jumper is exhausted, 50 ms after the 7th pulse was released. -/
theorem claim_C4_overflow_error_witness :
    (morseDecoder.decode
        { morseDecoder.init with gotLastSig := false, morseTableJumper := 0,
                                 morseTablePointer := 0, markTime := 1196,
                                 lastDebounceTime := 1288, spaceTime := 1288 } 1338 false).decodedMorseChar = '#' ∧
    (morseDecoder.decode
        { morseDecoder.init with gotLastSig := false, morseTableJumper := 0,
                                 morseTablePointer := 0, markTime := 1196,
                                 lastDebounceTime := 1288, spaceTime := 1288 } 1338 false).morseTablePointer = morseTreetop :=
  ⟨(claim_C4_overflow_error.1
      { morseDecoder.init with gotLastSig := false, morseTableJumper := 0,
                               morseTablePointer := 0, markTime := 1196,
                               lastDebounceTime := 1288, spaceTime := 1288 } 1338 rfl (by decide) rfl rfl (by decide)).1,
   (claim_C4_overflow_error.1
      { morseDecoder.init with gotLastSig := false, morseTableJumper := 0,
                               morseTablePointer := 0, markTime := 1196,
                               lastDebounceTime := 1288, spaceTime := 1288 } 1338 rfl (by decide) rfl rfl (by decide)).2.2.1⟩

set_option maxRecDepth 1000000 in
/-- Claim C1 (amended): for every non-sentinel entry of the morse table other
than the space (tree root) and `'_'`, encoding the character into its on/off
pulse sequence at 13 wpm and feeding that exact sequence tick by tick into a
fresh decoder at the same speed yields back exactly that character. -/
theorem claim_C1_roundtrip : ∀ c ∈ morseTable, c ≠ '*' → c ≠ ' ' → c ≠ '_' →
    decodeRun (encodeTrace c) = [c] := by decide

set_option maxRecDepth 1000000 in
/-- Claim C1 counterexample: the space character (a non-sentinel table entry)
encodes to an all-off sequence from which a fresh decoder emits nothing, and
`'_'` (also a non-sentinel entry) is mangled by the capitalization step and
decodes back as `'?'`. -/
theorem claim_C1_counterexample :
    ' ' ∈ morseTable ∧ (' ' : Char) ≠ '*' ∧ decodeRun (encodeTrace ' ') = [] ∧
    '_' ∈ morseTable ∧ ('_' : Char) ≠ '*' ∧ decodeRun (encodeTrace '_') = ['?'] ∧
    ([] : List Char) ≠ [' '] ∧ (['?'] : List Char) ≠ ['_'] := by decide

set_option maxRecDepth 1000000 in
/-- Claim C1 witness: the round trip instantiated at `'E'`. -/
theorem claim_C1_roundtrip_witness :
    ('E' ∈ morseTable ∧ ('E' : Char) ≠ '*' ∧ ('E' : Char) ≠ ' ' ∧ ('E' : Char) ≠ '_') ∧
    decodeRun (encodeTrace 'E') = ['E'] :=
  ⟨⟨by decide, by decide, by decide, by decide⟩,
   claim_C1_roundtrip 'E' (by decide) (by decide) (by decide) (by decide)⟩

/-- The seven values the decoder's table jumper ranges over: 32 and its
successive integer halvings down to 0. -/
def JumperVals (j : Int) : Prop :=
  j = 32 ∨ j = 16 ∨ j = 8 ∨ j = 4 ∨ j = 2 ∨ j = 1 ∨ j = 0

/-- Inductive invariant of the decoder's tree walk: the jumper is one of the
seven halving values, the pointer stays inside the 127-entry table, and while
the jumper is nonzero `2*jumper` divides `pointer + 1` (the pointer sits on a
node of the level the jumper corresponds to). -/
def DecInv (s : morseDecoder) : Prop :=
  JumperVals s.morseTableJumper ∧
  0 ≤ s.morseTablePointer ∧ s.morseTablePointer ≤ 126 ∧
  (s.morseTableJumper ≠ 0 → (2 * s.morseTableJumper) ∣ (s.morseTablePointer + 1))

/-- The freshly constructed decoder satisfies the invariant. -/
theorem decInv_init : DecInv morseDecoder.init :=
  ⟨Or.inl (by decide), by decide, by decide, fun _ => ⟨1, by decide⟩⟩

/-- Moving down the tree preserves the invariant: from a jumper `j > 0` with
`2*j ∣ p+1` and `p` inside the table, both `p - j` and `p + j` stay inside
the table and the halved jumper keeps the divisibility. -/
theorem decInv_move (j p : Int) (hj : JumperVals j) (hpos : j > 0)
    (hp0 : 0 ≤ p) (hp1 : p ≤ 126) (hd : (2 * j) ∣ (p + 1)) :
    (JumperVals (Int.tdiv j 2) ∧ 0 ≤ p - j ∧ p - j ≤ 126 ∧
      (Int.tdiv j 2 ≠ 0 → (2 * Int.tdiv j 2) ∣ (p - j + 1))) ∧
    (JumperVals (Int.tdiv j 2) ∧ 0 ≤ p + j ∧ p + j ≤ 126 ∧
      (Int.tdiv j 2 ≠ 0 → (2 * Int.tdiv j 2) ∣ (p + j + 1))) := by
  rcases hj with h|h|h|h|h|h|h <;> subst h <;>
    simp only [JumperVals, (by decide : Int.tdiv (32 : Int) 2 = 16),
      (by decide : Int.tdiv (16 : Int) 2 = 8),
      (by decide : Int.tdiv (8 : Int) 2 = 4),
      (by decide : Int.tdiv (4 : Int) 2 = 2),
      (by decide : Int.tdiv (2 : Int) 2 = 1),
      (by decide : Int.tdiv (1 : Int) 2 = 0),
      (by decide : Int.tdiv (0 : Int) 2 = 0)] <;>
    norm_num <;> omega

/-- The front-end never touches the pointer or the jumper. -/
theorem decInv_frontend (s : morseDecoder) (t : Int) (i : Bool) (h : DecInv s) :
    DecInv (morseDecoder.frontend s t i) := by
  obtain ⟨hj, hp0, hp1, hd⟩ := h
  simp only [morseDecoder.frontend]
  split <;> split <;> exact ⟨hj, hp0, hp1, hd⟩

/-- Classification preserves the invariant: a dot or dash move stays inside
the table, the error branch resets to the treetop. -/
theorem decInv_classify (s : morseDecoder) (t : Int) (h : DecInv s) :
    DecInv (morseDecoder.classify s t) := by
  obtain ⟨hj, hp0, hp1, hd⟩ := h
  unfold morseDecoder.classify
  split_ifs with h1 h2 h3 h4 h5 h6
  · have hm := decInv_move s.morseTableJumper s.morseTablePointer hj h2 hp0 hp1
      (hd (by omega))
    exact ⟨hm.1.1, hm.1.2.1, hm.1.2.2.1, hm.1.2.2.2⟩
  · have hm := decInv_move s.morseTableJumper s.morseTablePointer hj h2 hp0 hp1
      (hd (by omega))
    exact ⟨hm.2.1, hm.2.2.1, hm.2.2.2.1, hm.2.2.2.2⟩
  · exact ⟨hj, hp0, hp1, hd⟩
  · exact ⟨hj, hp0, hp1, hd⟩
  · exact ⟨hj, hp0, hp1, hd⟩
  · exact ⟨Or.inl (by decide : Int.tdiv (morseTreetop + 1) 2 = 32),
      (by decide : (0 : Int) ≤ morseTreetop), (by decide : morseTreetop ≤ 126),
      fun _ => ⟨1, (by decide : morseTreetop + 1 = 2 * Int.tdiv (morseTreetop + 1) 2 * 1)⟩⟩
  · exact ⟨hj, hp0, hp1, hd⟩

/-- Letter emission preserves the invariant (it resets to the treetop). -/
theorem decInv_emitLetter (s : morseDecoder) (t : Int) (h : DecInv s) :
    DecInv (morseDecoder.emitLetter s t) := by
  obtain ⟨hj, hp0, hp1, hd⟩ := h
  unfold morseDecoder.emitLetter
  split_ifs with h1
  · exact ⟨Or.inl (by decide : Int.tdiv (morseTreetop + 1) 2 = 32),
      (by decide : (0 : Int) ≤ morseTreetop), (by decide : morseTreetop ≤ 126),
      fun _ => ⟨1, (by decide : morseTreetop + 1 = 2 * Int.tdiv (morseTreetop + 1) 2 * 1)⟩⟩
  · exact ⟨hj, hp0, hp1, hd⟩

/-- Space emission never touches the pointer or the jumper. -/
theorem decInv_emitSpace (s : morseDecoder) (t : Int) (h : DecInv s) :
    DecInv (morseDecoder.emitSpace s t) := by
  obtain ⟨hj, hp0, hp1, hd⟩ := h
  unfold morseDecoder.emitSpace
  split_ifs with h1
  · exact ⟨hj, hp0, hp1, hd⟩
  · exact ⟨hj, hp0, hp1, hd⟩

/-- One full decode tick preserves the invariant. -/
theorem decInv_decode (s : morseDecoder) (t : Int) (i : Bool) (h : DecInv s) :
    DecInv (morseDecoder.decode s t i) := by
  have h1 := decInv_frontend s t i h
  simp only [morseDecoder.decode]
  split
  · exact decInv_emitSpace _ _ (decInv_emitLetter _ _ (decInv_classify _ _ h1))
  · obtain ⟨hj, hp0, hp1, hd⟩ := h1
    exact ⟨hj, hp0, hp1, hd⟩

/-- Speed changes preserve the invariant. -/
theorem decInv_setspeed (s : morseDecoder) (w : Int) (h : DecInv s) :
    DecInv (morseDecoder.setspeed s w) := by
  obtain ⟨hj, hp0, hp1, hd⟩ := h
  exact ⟨hj, hp0, hp1, hd⟩

/-- The invariant is preserved by any sequence of stimuli. -/
theorem decInv_runDec (cmds : List DecCmd) (s : morseDecoder) (h : DecInv s) :
    DecInv (runDec s cmds) := by
  induction cmds generalizing s with
  | nil => exact h
  | cons c rest ih =>
    cases c with
    | tick t i => exact ih _ (decInv_decode s t i h)
    | speed w => exact ih _ (decInv_setspeed s w h)

set_option maxRecDepth 10000 in
/-- Claim C9: in every decoder state reachable from the constructor by any
sequence of decode ticks (arbitrary clock values and input levels) and
setspeed calls, the table pointer lies within `[0, 126]` and the jumper is
one of 32, 16, 8, 4, 2, 1, 0; hence the table read at letter emission always
falls inside the 127-entry morse table. -/
theorem claim_C9_pointer_jumper_invariant : ∀ cmds : List DecCmd,
    0 ≤ (runDec morseDecoder.init cmds).morseTablePointer ∧
    (runDec morseDecoder.init cmds).morseTablePointer ≤ 126 ∧
    JumperVals (runDec morseDecoder.init cmds).morseTableJumper ∧
    (runDec morseDecoder.init cmds).morseTablePointer.toNat < morseTable.length := by
  intro cmds
  obtain ⟨hj, hp0, hp1, _⟩ := decInv_runDec cmds morseDecoder.init decInv_init
  have hlen : morseTable.length = 127 := by decide
  exact ⟨hp0, hp1, hj, by omega⟩
